import Mathlib

/-!
Verification development for the `crier` in-process publish/subscribe
dispatcher (crates `crier` / `gawk`, files `src/core/src/event.rs`,
`src/core/src/handler.rs`, `src/core/src/publisher.rs`).

The embedding is type-erased, exactly like the code: an event is a pair of a
runtime type identity (`tyId`, standing for Rust's `TypeId`) and a payload
value (`data`, standing for the concrete event value; duplication by `clone`
of these plain value types yields an equal value, so the duplicate handed to
a handler is modelled as the same `Nat`).  A handler's behaviour is a
function from the downcast payload to an optional panic payload (`none` =
returns normally, `some v` = panics with payload `v`); a mutating handler in
addition carries its internal state, its state-transition function and the
poison flag of the `Mutex` that wraps it in the registry.

`publish` is modelled operationally: the dispatch loop of
`Publisher::publish` threads a loop state holding the processed registry
entries (with updated mutating-handler state), the list of in-flight
spawned-but-unjoined results (`active`, mirroring `active_handles`), the
collected failure records (`errors`), a ghost trace of every invocation of
an underlying handler function (pairs `(id, payload)`), and a ghost
high-water mark of the in-flight count.  A panic of a mutating handler, or
the `lock().expect("Handler mutex poisoned")` on a poisoned mutex, aborts
the loop: `publish` itself panics (`Outcome.panicked`), all in-flight
threads are joined by the scope during unwinding and their results dropped.
-/

namespace Crier

/-- Type-erased event envelope (`Arc<dyn DynEvent>`): the runtime type
identity of the concrete event type together with the event value. -/
structure DynEvent where
  tyId : Nat
  data : Nat
deriving DecidableEq

/-- A read-only handler bound to event type `ty`: covers `Handler<T>`
(closure wrapper) and any `Handle<EventType = T>` implementor, both of which
erase to the same `DynHandle` trampoline.  `behavior d = none` means the
underlying handle function returns normally on payload `d`; `some v` means
it panics with payload `v`. -/
structure SyncHandler where
  ty : Nat
  behavior : Nat → Option Nat

/-- A mutating handler bound to event type `ty` (`HandleMut` implementor),
together with the state of the `Mutex` that wraps it in the registry:
`state` is its internal state, `step` its state transition on a matched
payload, `panicsOn` tells whether the invocation panics (given current state
and payload), and `poisoned` is the mutex poison flag. -/
structure MutHandler where
  ty : Nat
  state : Nat
  step : Nat → Nat → Nat
  panicsOn : Nat → Nat → Option Nat
  poisoned : Bool

/-- The two variants stored in the `handlers` map (`enum HandlerType`):
`Sync` is `Arc<dyn DynHandle>`, `SyncMut` is `Arc<Mutex<dyn DynHandleMut>>`. -/
inductive HandlerType where
  | Sync (h : SyncHandler)
  | SyncMut (m : MutHandler)

/-- The bound event type of a stored handler. -/
def boundTy : HandlerType → Nat
  | HandlerType.Sync h => h.ty
  | HandlerType.SyncMut m => m.ty

/-- The `Publisher` struct: the id counter `handler_count` and the
`HashMap<usize, HandlerType>` registry, modelled as an association list
(iteration order of the map is unspecified in Rust; the list order stands
for one admissible iteration order). -/
structure Publisher where
  handler_count : Nat
  handlers : List (Nat × HandlerType)

/-- `Publisher::default()`: empty registry, counter 0. -/
def Publisher.default : Publisher := ⟨0, []⟩

/-- `HashMap::insert`: replace the entry of an existing key, otherwise add
the binding. -/
def mapInsert (k : Nat) (v : HandlerType) : List (Nat × HandlerType) → List (Nat × HandlerType)
  | [] => [(k, v)]
  | ent :: rest => if ent.1 = k then (k, v) :: rest else ent :: mapInsert k v rest

/-- `HashMap::remove_entry`: drop the entry of key `k` if present. -/
def mapRemove (k : Nat) : List (Nat × HandlerType) → List (Nat × HandlerType)
  | [] => []
  | ent :: rest => if ent.1 = k then rest else ent :: mapRemove k rest

/-- `HashMap::get`: the value stored under key `k`, if any. -/
def mapLookup (k : Nat) : List (Nat × HandlerType) → Option HandlerType
  | [] => none
  | ent :: rest => if ent.1 = k then some ent.2 else mapLookup k rest

/-- `Publisher::subscribe` (also the target of `subscribe_with`): allocate
`handler_count + 1` as the fresh id, store the handler under it, advance the
counter, return the id. -/
def subscribe (pub : Publisher) (h : SyncHandler) : Publisher × Nat :=
  let id := pub.handler_count + 1
  (⟨id, mapInsert id (HandlerType.Sync h) pub.handlers⟩, id)

/-- `Publisher::subscribe_with`: wraps the closure in a `Handler` and
delegates to `subscribe`; the wrapping is identity in the erased model. -/
def subscribe_with (pub : Publisher) (h : SyncHandler) : Publisher × Nat :=
  subscribe pub h

/-- `Publisher::subscribe_mut`: same fresh-id allocation from the same
counter, storing the handler behind a mutex. -/
def subscribe_mut (pub : Publisher) (m : MutHandler) : Publisher × Nat :=
  let id := pub.handler_count + 1
  (⟨id, mapInsert id (HandlerType.SyncMut m) pub.handlers⟩, id)

/-- `Publisher::unsubscribe`: `self.handlers.remove_entry(&id)`, result
ignored. -/
def unsubscribe (pub : Publisher) (id : Nat) : Publisher :=
  ⟨pub.handler_count, mapRemove id pub.handlers⟩

/-- `Publisher::unsubscribe_mut`: textually the same body as `unsubscribe`. -/
def unsubscribe_mut (pub : Publisher) (id : Nat) : Publisher :=
  ⟨pub.handler_count, mapRemove id pub.handlers⟩

/-- The payload with which `publish` itself panics: either the propagated
panic payload of a mutating handler's invocation, or the
`expect("Handler mutex poisoned")` panic on a poisoned lock.  The two are
distinct conditions. -/
inductive PanicPayload where
  | handlerPanic (v : Nat)
  | poisonedLock
deriving DecidableEq

/-- The observable completion of a `publish` call: the Rust return value
`Ok(())` or `Err(errors)`, or a panic of `publish` itself. -/
inductive Outcome where
  | ok
  | err (failures : List Nat)
  | panicked (pl : PanicPayload)
deriving DecidableEq

/-- The failure list carried by an `Outcome`, empty unless it is `err`. -/
def Outcome.errList : Outcome → List Nat
  | Outcome.ok => []
  | Outcome.err l => l
  | Outcome.panicked _ => []

/-- Whether the `publish` call panicked rather than returning. -/
def Outcome.isPanicked : Outcome → Bool
  | Outcome.panicked _ => true
  | _ => false

/-- State threaded through the dispatch loop of `Publisher::publish`:
`done` are the registry entries already iterated (with mutating-handler
state written back), `active` mirrors `active_handles` (each element is the
result a `join` of that spawned thread will deliver: `some v` iff the
handler panicked with payload `v`), `errors` the collected failure records,
`trace` the ghost list of underlying-handler invocations `(id, payload)`,
and `hwm` the ghost high-water mark of `active.length` sampled after every
spawn. -/
structure LoopState where
  done : List (Nat × HandlerType)
  active : List (Option Nat)
  errors : List Nat
  trace : List (Nat × Nat)
  hwm : Nat

/-- Joining the oldest outstanding unit: `active_handles.remove(0)` followed
by `join`, pushing the delivered error, if any, onto `errors`. -/
def joinOldest (st : LoopState) : LoopState :=
  match st.active with
  | [] => st
  | r :: rest => { st with active := rest, errors := st.errors ++ r.toList }

/-- The guarded join `if active_handles.len() >= max_threads { ... }` that
appears both before each spawn and at the bottom of every loop iteration. -/
def checkJoin (p : Nat) (st : LoopState) : LoopState :=
  if p ≤ st.active.length then joinOldest st else st

/-- The `DynHandle` trampoline `dyn_handle` for a read-only handler: on a
successful downcast (`event.get_data().downcast_ref::<T>()`), the underlying
handle function is invoked with a duplicate of the matched value; the result
records the invocation argument and the optional panic payload.  On type
mismatch nothing happens (`none`). -/
def dyn_handle (h : SyncHandler) (e : DynEvent) : Option (Nat × Option Nat) :=
  if e.tyId = h.ty then some (e.data, h.behavior e.data) else none

/-- The `DynHandleMut` trampoline `dyn_handle_mut`: on a successful downcast
the underlying `handle_mut` runs on a duplicate of the matched value,
either panicking (state unchanged, panic payload returned) or stepping the
internal state; on mismatch nothing happens.  Returns the list of
invocation arguments, the handler after the call, and the optional panic. -/
def dyn_handle_mut (m : MutHandler) (e : DynEvent) : List Nat × MutHandler × Option Nat :=
  if e.tyId = m.ty then
    match m.panicsOn m.state e.data with
    | some v => ([e.data], m, some v)
    | none => ([e.data], { m with state := m.step m.state e.data }, none)
  else ([], m, none)

/-- Queue the spawned `catch_unwind` invocation of a read-only handler's
trampoline: the entry joins `done`, the eventual join result (`r`'s panic
payload, if any) joins `active`, a successful downcast records the
invocation on the ghost trace, and the ghost high-water mark samples the new
in-flight count. -/
def spawnSync (i : Nat) (h : SyncHandler) (r : Option (Nat × Option Nat))
    (st : LoopState) : LoopState :=
  match r with
  | some (arg, res) =>
      { st with
        done := st.done ++ [(i, HandlerType.Sync h)]
        active := st.active ++ [res]
        trace := st.trace ++ [(i, arg)]
        hwm := max st.hwm (st.active.length + 1) }
  | none =>
      { st with
        done := st.done ++ [(i, HandlerType.Sync h)]
        active := st.active ++ [none]
        hwm := max st.hwm (st.active.length + 1) }

/-- One iteration of the dispatch loop body, for the registry entry `ent`.
The `Sync` arm joins the oldest unit if the budget `p` is saturated, spawns
the trampoline under `catch_unwind` (its eventual result is queued on
`active`), then runs the bottom-of-loop guarded join.  The `SyncMut` arm
locks the mutex — panicking with `poisonedLock` if it is poisoned — and runs
the trampoline in line on the publishing thread; a panic there poisons the
mutex and aborts `publish` (`Except.error`), otherwise the updated handler
is written back and the bottom-of-loop guarded join runs. -/
def stepHandler (p : Nat) (e : DynEvent) (st : LoopState) (ent : Nat × HandlerType) :
    Except (LoopState × PanicPayload) LoopState :=
  match ent with
  | (i, HandlerType.Sync h) =>
      Except.ok (checkJoin p (spawnSync i h (dyn_handle h e) (checkJoin p st)))
  | (i, HandlerType.SyncMut m) =>
      if m.poisoned then
        Except.error
          ({ st with done := st.done ++ [(i, HandlerType.SyncMut m)] },
            PanicPayload.poisonedLock)
      else
        match dyn_handle_mut m e with
        | (args, m2, some v) =>
            Except.error
              ({ st with
                  done := st.done ++ [(i, HandlerType.SyncMut { m2 with poisoned := true })]
                  trace := st.trace ++ args.map (fun a => (i, a)) },
                PanicPayload.handlerPanic v)
        | (args, m2, none) =>
            Except.ok (checkJoin p
              { st with
                  done := st.done ++ [(i, HandlerType.SyncMut m2)]
                  trace := st.trace ++ args.map (fun a => (i, a)) })

/-- The `for handler in self.handlers.values()` loop.  On an abort (a panic
escaping the loop body) the remaining entries are not iterated but stay in
the registry untouched, and the scope joins every in-flight thread while
unwinding, dropping their results. -/
def dispatchLoop (p : Nat) (e : DynEvent) :
    List (Nat × HandlerType) → LoopState → Except (LoopState × PanicPayload) LoopState
  | [], st => Except.ok st
  | ent :: rest, st =>
      match stepHandler p e st ent with
      | Except.ok st2 => dispatchLoop p e rest st2
      | Except.error (stA, pl) =>
          Except.error ({ stA with done := stA.done ++ rest, active := [] }, pl)

/-- The final `for handle in active_handles` drain: join every remaining
in-flight unit in order, collecting the failures. -/
def drainAll (st : LoopState) : LoopState :=
  { st with active := [], errors := st.errors ++ st.active.filterMap id }

/-- The observable result of one `publish` call: the publisher afterwards
(mutating-handler state and poison flags written back), the returned or
panicked outcome, the ghost invocation trace, and the ghost in-flight
high-water mark. -/
structure PublishResult where
  pub : Publisher
  outcome : Outcome
  trace : List (Nat × Nat)
  hwm : Nat

/-- `Publisher::publish`, with concurrency budget `p` standing for
`thread::available_parallelism().map(|n| n.get()).unwrap_or(1)` (always at
least 1 in Rust, since `available_parallelism` returns a `NonZeroUsize`).
Runs the dispatch loop from the empty loop state, drains the in-flight
units, and returns `Ok(())` iff no failure record was collected. -/
def publish (p : Nat) (pub : Publisher) (e : DynEvent) : PublishResult :=
  match dispatchLoop p e pub.handlers ⟨[], [], [], [], 0⟩ with
  | Except.ok st =>
      let st2 := drainAll st
      { pub := ⟨pub.handler_count, st2.done⟩
        outcome := if st2.errors.isEmpty then Outcome.ok else Outcome.err st2.errors
        trace := st2.trace
        hwm := st2.hwm }
  | Except.error (st, pl) =>
      { pub := ⟨pub.handler_count, st.done⟩
        outcome := Outcome.panicked pl
        trace := st.trace
        hwm := st.hwm }

/-- Well-formedness of a publisher, maintained by every operation: registry
keys are distinct and never exceed the id counter. -/
def WF (pub : Publisher) : Prop :=
  (pub.handlers.map Prod.fst).Nodup ∧ ∀ k ∈ pub.handlers.map Prod.fst, k ≤ pub.handler_count

instance (pub : Publisher) : Decidable (WF pub) := by
  unfold WF; infer_instance

/-- The ghost invocation the dispatch of entry `ent` contributes to the
trace: the entry's id paired with the event payload when the runtime types
match, nothing otherwise. -/
def matchEntry (e : DynEvent) (ent : Nat × HandlerType) : Option (Nat × Nat) :=
  if e.tyId = boundTy ent.2 then some (ent.1, e.data) else none

/-- The failure record entry `ent` contributes to the returned list: the
panic payload of a read-only handler that matches and faults, nothing for a
non-matching or normally returning read-only handler, and nothing for a
mutating handler (whose faults are not caught). -/
def syncFault (e : DynEvent) (ent : Nat × HandlerType) : Option Nat :=
  match ent.2 with
  | HandlerType.Sync h => if e.tyId = h.ty then h.behavior e.data else none
  | HandlerType.SyncMut _ => none

/-- A registry entry after a non-aborting dispatch of event `e`: read-only
handlers are untouched, a mutating handler's state is stepped by its
trampoline. -/
def applyMutEntry (e : DynEvent) (ent : Nat × HandlerType) : Nat × HandlerType :=
  match ent with
  | (i, HandlerType.Sync h) => (i, HandlerType.Sync h)
  | (i, HandlerType.SyncMut m) => (i, HandlerType.SyncMut (dyn_handle_mut m e).2.1)

/-- No mutating handler aborts the dispatch of `e`: none of their locks is
poisoned and none of them panics when invoked on `e`. -/
def NoMutAbort (e : DynEvent) (hs : List (Nat × HandlerType)) : Prop :=
  ∀ i m, (i, HandlerType.SyncMut m) ∈ hs →
    m.poisoned = false ∧ (e.tyId = m.ty → m.panicsOn m.state e.data = none)

/-- The failure records already delivered together with those still queued
on in-flight units; joins move records from the second summand to the first
without changing the whole. -/
def collected (st : LoopState) : List Nat :=
  st.errors ++ st.active.filterMap id

/-- The eventual join result queued by a spawn: the panic payload of the
spawned invocation, if any. -/
def spawnErr : Option (Nat × Option Nat) → Option Nat
  | some (_, res) => res
  | none => none

/-- The subscription and removal operations a caller can interleave on one
publisher (the publishing operation does not touch the id counter or the key
set, so it is irrelevant to id allocation). -/
inductive Op where
  | sub (h : SyncHandler)
  | subWith (h : SyncHandler)
  | subMut (m : MutHandler)
  | unsub (id : Nat)
  | unsubMut (id : Nat)

/-- Whether an operation issues a fresh subscription id. -/
def isSub : Op → Bool
  | Op.sub _ => true
  | Op.subWith _ => true
  | Op.subMut _ => true
  | Op.unsub _ => false
  | Op.unsubMut _ => false

/-- Run a sequence of subscription operations, collecting the issued ids in
order. -/
def runOps : Publisher → List Op → Publisher × List Nat
  | pub, [] => (pub, [])
  | pub, Op.sub h :: rest =>
      ((runOps (subscribe pub h).1 rest).1,
        (subscribe pub h).2 :: (runOps (subscribe pub h).1 rest).2)
  | pub, Op.subWith h :: rest =>
      ((runOps (subscribe_with pub h).1 rest).1,
        (subscribe_with pub h).2 :: (runOps (subscribe_with pub h).1 rest).2)
  | pub, Op.subMut m :: rest =>
      ((runOps (subscribe_mut pub m).1 rest).1,
        (subscribe_mut pub m).2 :: (runOps (subscribe_mut pub m).1 rest).2)
  | pub, Op.unsub id :: rest => runOps (unsubscribe pub id) rest
  | pub, Op.unsubMut id :: rest => runOps (unsubscribe_mut pub id) rest

/-- A mutating counter handler bound to event type `t`: its state is a
counter incremented on every matched invocation, and it never panics. -/
def counterHandler (t : Nat) : MutHandler :=
  ⟨t, 0, fun s _ => s + 1, fun _ _ => none, false⟩

/-- Publish a sequence of events of runtime type `t` (payloads `ds`) one
after the other, threading the publisher state. -/
def publishSeq (pnum t : Nat) (ds : List Nat) (pub : Publisher) : Publisher :=
  ds.foldl (fun pb d => (publish pnum pb (DynEvent.mk t d)).pub) pub

/-- A read-only handler of event type 0 that always returns normally. -/
def wSyncOk : SyncHandler := ⟨0, fun _ => none⟩

/-- A read-only handler of event type 0 that always panics with payload 3. -/
def wSyncFault : SyncHandler := ⟨0, fun _ => some 3⟩

/-- A mutating handler of event type 0 whose invocation always panics with
payload 7, lock not yet poisoned. -/
def cexMutPanic : MutHandler := ⟨0, 0, fun s _ => s, fun _ _ => some 7, false⟩

/-- A publisher holding the always-panicking mutating handler under id 1 and
a well-behaved read-only handler of the same event type under id 2, in that
iteration order. -/
def cexPub2 : Publisher :=
  ⟨2, [(1, HandlerType.SyncMut cexMutPanic), (2, HandlerType.Sync wSyncOk)]⟩

/-- A publisher holding one mutating handler (event type 0) whose invocation
always panics with payload 9. -/
def cexPubMut : Publisher :=
  ⟨1, [(1, HandlerType.SyncMut ⟨0, 0, fun s _ => s, fun _ _ => some 9, false⟩)]⟩

/-- A publisher holding the normally returning read-only handler under id 1,
as produced by one `subscribe` call on the default publisher. -/
def wPub1 : Publisher := (subscribe Publisher.default wSyncOk).1

/-- A publisher holding a faulting read-only handler under id 1 and a
well-behaved read-only handler under id 2, both bound to event type 0. -/
def wPubF : Publisher :=
  ⟨2, [(1, HandlerType.Sync wSyncFault), (2, HandlerType.Sync wSyncOk)]⟩

theorem joinOldest_done (st : LoopState) : (joinOldest st).done = st.done := by
  rcases st with ⟨d, a, er, t, w⟩; cases a <;> rfl

theorem joinOldest_trace (st : LoopState) : (joinOldest st).trace = st.trace := by
  rcases st with ⟨d, a, er, t, w⟩; cases a <;> rfl

theorem joinOldest_hwm (st : LoopState) : (joinOldest st).hwm = st.hwm := by
  rcases st with ⟨d, a, er, t, w⟩; cases a <;> rfl

theorem joinOldest_collected (st : LoopState) : collected (joinOldest st) = collected st := by
  rcases st with ⟨d, a, er, t, w⟩
  cases a with
  | nil => rfl
  | cons r rest => cases r <;> simp [joinOldest, collected]

theorem joinOldest_active (st : LoopState) : (joinOldest st).active = st.active.tail := by
  rcases st with ⟨d, a, er, t, w⟩; cases a <;> rfl

theorem checkJoin_done (p : Nat) (st : LoopState) : (checkJoin p st).done = st.done := by
  unfold checkJoin; split <;> simp [joinOldest_done]

theorem checkJoin_trace (p : Nat) (st : LoopState) : (checkJoin p st).trace = st.trace := by
  unfold checkJoin; split <;> simp [joinOldest_trace]

theorem checkJoin_hwm (p : Nat) (st : LoopState) : (checkJoin p st).hwm = st.hwm := by
  unfold checkJoin; split <;> simp [joinOldest_hwm]

theorem checkJoin_collected (p : Nat) (st : LoopState) :
    collected (checkJoin p st) = collected st := by
  unfold checkJoin; split <;> simp [joinOldest_collected]

theorem checkJoin_of_lt (p : Nat) (st : LoopState) (h : st.active.length < p) :
    checkJoin p st = st := by
  unfold checkJoin
  rw [if_neg (by omega)]

theorem checkJoin_length (p : Nat) (st : LoopState) (hp : 1 ≤ p)
    (h : st.active.length ≤ p) : (checkJoin p st).active.length < p := by
  unfold checkJoin
  split
  · rename_i hle
    rcases st with ⟨d, a, er, t, w⟩
    cases a with
    | nil => simp at hle; omega
    | cons r rest => simp [joinOldest] at *; omega
  · omega

theorem spawnSync_done (i : Nat) (h : SyncHandler) (r : Option (Nat × Option Nat))
    (st : LoopState) : (spawnSync i h r st).done = st.done ++ [(i, HandlerType.Sync h)] := by
  rcases r with _ | ⟨arg, res⟩ <;> rfl

theorem spawnSync_trace (i : Nat) (h : SyncHandler) (r : Option (Nat × Option Nat))
    (st : LoopState) :
    (spawnSync i h r st).trace = st.trace ++ (r.map (fun x => (i, x.1))).toList := by
  rcases r with _ | ⟨arg, res⟩ <;> simp [spawnSync]

theorem spawnSync_collected (i : Nat) (h : SyncHandler) (r : Option (Nat × Option Nat))
    (st : LoopState) :
    collected (spawnSync i h r st) = collected st ++ (spawnErr r).toList := by
  rcases r with _ | ⟨arg, res⟩
  · simp [spawnSync, collected, spawnErr, List.filterMap_append]
  · cases res <;> simp [spawnSync, collected, spawnErr, List.filterMap_append]

theorem spawnSync_length (i : Nat) (h : SyncHandler) (r : Option (Nat × Option Nat))
    (st : LoopState) : (spawnSync i h r st).active.length = st.active.length + 1 := by
  rcases r with _ | ⟨arg, res⟩ <;> simp [spawnSync]

theorem spawnSync_hwm (i : Nat) (h : SyncHandler) (r : Option (Nat × Option Nat))
    (st : LoopState) : (spawnSync i h r st).hwm = max st.hwm (st.active.length + 1) := by
  rcases r with _ | ⟨arg, res⟩ <;> rfl

theorem spawnErr_dyn_handle (h : SyncHandler) (e : DynEvent) (i : Nat) :
    spawnErr (dyn_handle h e) = syncFault e (i, HandlerType.Sync h) := by
  by_cases hm : e.tyId = h.ty <;> simp [dyn_handle, syncFault, spawnErr, hm]

theorem dyn_handle_trace (h : SyncHandler) (e : DynEvent) (i : Nat) :
    ((dyn_handle h e).map (fun x => (i, x.1))).toList
      = (matchEntry e (i, HandlerType.Sync h)).toList := by
  by_cases hm : e.tyId = h.ty <;> simp [dyn_handle, matchEntry, boundTy, hm]

theorem stepHandler_sync (p : Nat) (e : DynEvent) (st : LoopState) (i : Nat)
    (h : SyncHandler) :
    ∃ st2, stepHandler p e st (i, HandlerType.Sync h) = Except.ok st2 ∧
      st2.trace = st.trace ++ (matchEntry e (i, HandlerType.Sync h)).toList ∧
      st2.done = st.done ++ [(i, HandlerType.Sync h)] ∧
      collected st2 = collected st ++ (syncFault e (i, HandlerType.Sync h)).toList := by
  refine ⟨_, rfl, ?_, ?_, ?_⟩
  · rw [checkJoin_trace, spawnSync_trace, checkJoin_trace, dyn_handle_trace]
  · rw [checkJoin_done, spawnSync_done, checkJoin_done]
  · rw [checkJoin_collected, spawnSync_collected, checkJoin_collected, spawnErr_dyn_handle]

theorem stepHandler_mut_ok (p : Nat) (e : DynEvent) (st : LoopState) (i : Nat)
    (m : MutHandler) (hpois : m.poisoned = false)
    (hpan : e.tyId = m.ty → m.panicsOn m.state e.data = none) :
    ∃ st2, stepHandler p e st (i, HandlerType.SyncMut m) = Except.ok st2 ∧
      st2.trace = st.trace ++ (matchEntry e (i, HandlerType.SyncMut m)).toList ∧
      st2.done = st.done ++ [(i, HandlerType.SyncMut (dyn_handle_mut m e).2.1)] ∧
      collected st2 = collected st ++ (syncFault e (i, HandlerType.SyncMut m)).toList := by
  by_cases hm : e.tyId = m.ty
  · have hstep : stepHandler p e st (i, HandlerType.SyncMut m) =
        Except.ok (checkJoin p
          { st with
            done := st.done ++
              [(i, HandlerType.SyncMut { m with state := m.step m.state e.data })]
            trace := st.trace ++ [(i, e.data)] }) := by
      simp [stepHandler, hpois, dyn_handle_mut, hm, hpan hm]
    refine ⟨_, hstep, ?_, ?_, ?_⟩
    · rw [checkJoin_trace]
      simp [matchEntry, boundTy, hm]
    · rw [checkJoin_done]
      simp [dyn_handle_mut, hm, hpan hm]
    · rw [checkJoin_collected]
      simp [collected, syncFault]
  · have hstep : stepHandler p e st (i, HandlerType.SyncMut m) =
        Except.ok (checkJoin p
          { st with done := st.done ++ [(i, HandlerType.SyncMut m)] }) := by
      simp [stepHandler, hpois, dyn_handle_mut, hm]
    refine ⟨_, hstep, ?_, ?_, ?_⟩
    · rw [checkJoin_trace]
      simp [matchEntry, boundTy, hm]
    · rw [checkJoin_done]
      simp [dyn_handle_mut, hm]
    · rw [checkJoin_collected]
      simp [collected, syncFault]

theorem dispatchLoop_ok_spec (p : Nat) (e : DynEvent) (hs : List (Nat × HandlerType))
    (st : LoopState) (hna : NoMutAbort e hs) :
    ∃ st2, dispatchLoop p e hs st = Except.ok st2 ∧
      st2.trace = st.trace ++ hs.filterMap (matchEntry e) ∧
      st2.done = st.done ++ hs.map (applyMutEntry e) ∧
      collected st2 = collected st ++ hs.filterMap (syncFault e) := by
  induction hs generalizing st with
  | nil => exact ⟨st, rfl, by simp, by simp, by simp⟩
  | cons ent rest ih =>
      have hna1 : NoMutAbort e rest := fun i m hmem => hna i m (List.mem_cons_of_mem _ hmem)
      rcases ent with ⟨i, ht⟩
      cases ht with
      | Sync h =>
          obtain ⟨st1, hstep, htr, hdone, hcol⟩ := stepHandler_sync p e st i h
          obtain ⟨st2, hloop, htr2, hdone2, hcol2⟩ := ih st1 hna1
          refine ⟨st2, ?_, ?_, ?_, ?_⟩
          · simp [dispatchLoop, hstep, hloop]
          · rw [htr2, htr, List.append_assoc]
            congr 1
            cases hc : matchEntry e (i, HandlerType.Sync h) <;>
              simp [List.filterMap_cons, hc]
          · rw [hdone2, hdone, List.append_assoc]
            simp [applyMutEntry]
          · rw [hcol2, hcol, List.append_assoc]
            congr 1
            cases hc : syncFault e (i, HandlerType.Sync h) <;>
              simp [List.filterMap_cons, hc]
      | SyncMut m =>
          obtain ⟨hpois, hpan⟩ := hna i m (List.mem_cons_self _ _)
          obtain ⟨st1, hstep, htr, hdone, hcol⟩ := stepHandler_mut_ok p e st i m hpois hpan
          obtain ⟨st2, hloop, htr2, hdone2, hcol2⟩ := ih st1 hna1
          refine ⟨st2, ?_, ?_, ?_, ?_⟩
          · simp [dispatchLoop, hstep, hloop]
          · rw [htr2, htr, List.append_assoc]
            congr 1
            cases hc : matchEntry e (i, HandlerType.SyncMut m) <;>
              simp [List.filterMap_cons, hc]
          · rw [hdone2, hdone, List.append_assoc]
            simp [applyMutEntry]
          · rw [hcol2, hcol, List.append_assoc]
            simp [List.filterMap_cons, syncFault]

theorem publish_spec (p : Nat) (pub : Publisher) (e : DynEvent)
    (hna : NoMutAbort e pub.handlers) :
    (publish p pub e).trace = pub.handlers.filterMap (matchEntry e) ∧
    (publish p pub e).outcome.errList = pub.handlers.filterMap (syncFault e) ∧
    ((publish p pub e).outcome = Outcome.ok ↔ pub.handlers.filterMap (syncFault e) = []) ∧
    (publish p pub e).outcome.isPanicked = false ∧
    (publish p pub e).pub = ⟨pub.handler_count, pub.handlers.map (applyMutEntry e)⟩ := by
  obtain ⟨st2, hloop, htr, hdone, hcol⟩ :=
    dispatchLoop_ok_spec p e pub.handlers ⟨[], [], [], [], 0⟩ hna
  have hcol2 : (drainAll st2).errors = pub.handlers.filterMap (syncFault e) := by
    have : (drainAll st2).errors = collected st2 := rfl
    rw [this, hcol]
    simp [collected]
  have hpub : publish p pub e =
      { pub := ⟨pub.handler_count, (drainAll st2).done⟩
        outcome := if (drainAll st2).errors.isEmpty then Outcome.ok
          else Outcome.err (drainAll st2).errors
        trace := (drainAll st2).trace
        hwm := (drainAll st2).hwm } := by
    simp [publish, hloop]
  refine ⟨?_, ?_, ?_, ?_, ?_⟩
  · rw [hpub]
    show (drainAll st2).trace = _
    have : (drainAll st2).trace = st2.trace := rfl
    rw [this, htr]
    simp
  · rw [hpub]
    show Outcome.errList (if (drainAll st2).errors.isEmpty then Outcome.ok
      else Outcome.err (drainAll st2).errors) = _
    rw [hcol2]
    cases hc : pub.handlers.filterMap (syncFault e) <;> simp [Outcome.errList]
  · rw [hpub]
    show (if (drainAll st2).errors.isEmpty then Outcome.ok
      else Outcome.err (drainAll st2).errors) = Outcome.ok ↔ _
    rw [hcol2]
    cases hc : pub.handlers.filterMap (syncFault e) <;> simp
  · rw [hpub]
    show Outcome.isPanicked (if (drainAll st2).errors.isEmpty then Outcome.ok
      else Outcome.err (drainAll st2).errors) = false
    split <;> rfl
  · rw [hpub]
    show Publisher.mk pub.handler_count (drainAll st2).done = _
    have : (drainAll st2).done = st2.done := rfl
    rw [this, hdone]
    simp

theorem joinOldest_length_le (st : LoopState) :
    (joinOldest st).active.length ≤ st.active.length := by
  rcases st with ⟨d, a, er, t, w⟩
  cases a <;> simp [joinOldest]

theorem checkJoin_length_le (p : Nat) (st : LoopState) :
    (checkJoin p st).active.length ≤ st.active.length := by
  unfold checkJoin
  split
  · exact joinOldest_length_le st
  · exact le_refl _

theorem stepHandler_bound (p : Nat) (e : DynEvent) (st : LoopState)
    (ent : Nat × HandlerType) (hp : 1 ≤ p) (hlen : st.active.length < p)
    (hhwm : st.hwm ≤ p) :
    (∀ st2, stepHandler p e st ent = Except.ok st2 →
      st2.active.length < p ∧ st2.hwm ≤ p) ∧
    (∀ stA pl, stepHandler p e st ent = Except.error (stA, pl) → stA.hwm ≤ p) := by
  rcases ent with ⟨i, ht⟩
  cases ht with
  | Sync h =>
      constructor
      · intro st2 hstep
        have hst2 : st2 = checkJoin p (spawnSync i h (dyn_handle h e) (checkJoin p st)) :=
          (Except.ok.inj hstep).symm
        have hcj : checkJoin p st = st := checkJoin_of_lt p st hlen
        rw [hst2, hcj]
        constructor
        · apply checkJoin_length p _ hp
          rw [spawnSync_length]
          omega
        · rw [checkJoin_hwm, spawnSync_hwm]
          omega
      · intro stA pl hstep
        exact absurd hstep (by simp [stepHandler])
  | SyncMut m =>
      by_cases hpois : m.poisoned
      · constructor
        · intro st2 hstep
          simp [stepHandler, hpois] at hstep
        · intro stA pl hstep
          simp [stepHandler, hpois] at hstep
          rw [← hstep.1]
          exact hhwm
      · rcases hd : dyn_handle_mut m e with ⟨args, m2, res⟩
        cases res with
        | some v =>
            constructor
            · intro st2 hstep
              simp [stepHandler, hpois, hd] at hstep
            · intro stA pl hstep
              simp [stepHandler, hpois, hd] at hstep
              rw [← hstep.1]
              exact hhwm
        | none =>
            constructor
            · intro st2 hstep
              simp [stepHandler, hpois, hd] at hstep
              rw [← hstep]
              constructor
              · exact lt_of_le_of_lt (checkJoin_length_le p _) hlen
              · rw [checkJoin_hwm]
                exact hhwm
            · intro stA pl hstep
              simp [stepHandler, hpois, hd] at hstep

theorem dispatchLoop_bound (p : Nat) (e : DynEvent) (hs : List (Nat × HandlerType))
    (st : LoopState) (hp : 1 ≤ p) (hlen : st.active.length < p) (hhwm : st.hwm ≤ p) :
    (∀ st2, dispatchLoop p e hs st = Except.ok st2 →
      st2.active.length < p ∧ st2.hwm ≤ p) ∧
    (∀ stA pl, dispatchLoop p e hs st = Except.error (stA, pl) → stA.hwm ≤ p) := by
  induction hs generalizing st with
  | nil =>
      constructor
      · intro st2 hstep
        have : st2 = st := (Except.ok.inj hstep).symm
        rw [this]
        exact ⟨hlen, hhwm⟩
      · intro stA pl hstep
        exact absurd hstep (by simp [dispatchLoop])
  | cons ent rest ih =>
      cases heq : stepHandler p e st ent with
      | ok stm =>
          obtain ⟨hm1, hm2⟩ := (stepHandler_bound p e st ent hp hlen hhwm).1 stm heq
          constructor
          · intro st2 hstep
            rw [dispatchLoop, heq] at hstep
            exact (ih stm hm1 hm2).1 st2 hstep
          · intro stA pl hstep
            rw [dispatchLoop, heq] at hstep
            exact (ih stm hm1 hm2).2 stA pl hstep
      | error epair =>
          rcases epair with ⟨stA0, pl0⟩
          have hA : stA0.hwm ≤ p := (stepHandler_bound p e st ent hp hlen hhwm).2 stA0 pl0 heq
          constructor
          · intro st2 hstep
            rw [dispatchLoop, heq] at hstep
            exact absurd hstep (by simp)
          · intro stA pl hstep
            rw [dispatchLoop, heq] at hstep
            have h1 : ({ stA0 with done := stA0.done ++ rest, active := [] }, pl0)
                = ((stA, pl) : LoopState × PanicPayload) := Except.error.inj hstep
            have h2 : stA = { stA0 with done := stA0.done ++ rest, active := [] } :=
              (congrArg Prod.fst h1).symm
            rw [h2]
            exact hA

theorem publish_hwm_le (p : Nat) (pub : Publisher) (e : DynEvent) (hp : 1 ≤ p) :
    (publish p pub e).hwm ≤ p := by
  have hb := dispatchLoop_bound p e pub.handlers ⟨[], [], [], [], 0⟩ hp (by simpa using hp)
    (by simp)
  cases heq : dispatchLoop p e pub.handlers ⟨[], [], [], [], 0⟩ with
  | ok st2 =>
      have := (hb.1 st2 heq).2
      simp [publish, heq, drainAll]
      exact this
  | error epair =>
      rcases epair with ⟨stA, pl⟩
      have := hb.2 stA pl heq
      simp [publish, heq]
      exact this

theorem stepHandler_trace_keys (p : Nat) (e : DynEvent) (st : LoopState)
    (ent : Nat × HandlerType) :
    (∀ st2, stepHandler p e st ent = Except.ok st2 →
      ∀ q ∈ st2.trace, q ∈ st.trace ∨ q.1 = ent.1) ∧
    (∀ stA pl, stepHandler p e st ent = Except.error (stA, pl) →
      ∀ q ∈ stA.trace, q ∈ st.trace ∨ q.1 = ent.1) := by
  rcases ent with ⟨i, ht⟩
  cases ht with
  | Sync h =>
      constructor
      · intro st2 hstep q hq
        have hst2 : st2 = checkJoin p (spawnSync i h (dyn_handle h e) (checkJoin p st)) :=
          (Except.ok.inj hstep).symm
        rw [hst2, checkJoin_trace, spawnSync_trace, checkJoin_trace] at hq
        rcases List.mem_append.mp hq with hl | hr
        · exact Or.inl hl
        · right
          rcases hd : dyn_handle h e with _ | ⟨arg, res⟩ <;> rw [hd] at hr <;>
            simp at hr
          simp [hr]
      · intro stA pl hstep
        exact absurd hstep (by simp [stepHandler])
  | SyncMut m =>
      by_cases hpois : m.poisoned
      · constructor
        · intro st2 hstep
          simp [stepHandler, hpois] at hstep
        · intro stA pl hstep q hq
          simp [stepHandler, hpois] at hstep
          rw [← hstep.1] at hq
          exact Or.inl hq
      · rcases hd : dyn_handle_mut m e with ⟨args, m2, res⟩
        have hargs : args = [] ∨ args = [e.data] := by
          unfold dyn_handle_mut at hd
          split at hd
          · split at hd <;> simp at hd <;> simp [hd]
          · simp at hd
            simp [hd]
        cases res with
        | some v =>
            constructor
            · intro st2 hstep
              simp [stepHandler, hpois, hd] at hstep
            · intro stA pl hstep q hq
              simp [stepHandler, hpois, hd] at hstep
              rw [← hstep.1] at hq
              simp at hq
              rcases hq with hl | hr
              · exact Or.inl hl
              · right
                rcases hargs with ha | ha <;> rw [ha] at hr <;> simp at hr
                simp [← hr]
        | none =>
            constructor
            · intro st2 hstep q hq
              simp [stepHandler, hpois, hd] at hstep
              rw [← hstep, checkJoin_trace] at hq
              simp at hq
              rcases hq with hl | hr
              · exact Or.inl hl
              · right
                rcases hargs with ha | ha <;> rw [ha] at hr <;> simp at hr
                simp [← hr]
            · intro stA pl hstep
              simp [stepHandler, hpois, hd] at hstep

theorem dispatchLoop_trace_keys (p : Nat) (e : DynEvent) (hs : List (Nat × HandlerType))
    (st : LoopState) :
    (∀ st2, dispatchLoop p e hs st = Except.ok st2 →
      ∀ q ∈ st2.trace, q ∈ st.trace ∨ q.1 ∈ hs.map Prod.fst) ∧
    (∀ stA pl, dispatchLoop p e hs st = Except.error (stA, pl) →
      ∀ q ∈ stA.trace, q ∈ st.trace ∨ q.1 ∈ hs.map Prod.fst) := by
  induction hs generalizing st with
  | nil =>
      constructor
      · intro st2 hstep q hq
        have : st2 = st := (Except.ok.inj hstep).symm
        rw [this] at hq
        exact Or.inl hq
      · intro stA pl hstep
        exact absurd hstep (by simp [dispatchLoop])
  | cons ent rest ih =>
      have hkey : ∀ q : Nat × Nat, q.1 = ent.1 → q.1 ∈ (ent :: rest).map Prod.fst := by
        intro q hq
        simp [hq]
      cases heq : stepHandler p e st ent with
      | ok stm =>
          have hstep := (stepHandler_trace_keys p e st ent).1 stm heq
          constructor
          · intro st2 hloop q hq
            rw [dispatchLoop, heq] at hloop
            rcases (ih stm).1 st2 hloop q hq with hl | hr
            · rcases hstep q hl with hl2 | hr2
              · exact Or.inl hl2
              · exact Or.inr (hkey q hr2)
            · right
              simp
              right
              simpa using hr
          · intro stA pl hloop q hq
            rw [dispatchLoop, heq] at hloop
            rcases (ih stm).2 stA pl hloop q hq with hl | hr
            · rcases hstep q hl with hl2 | hr2
              · exact Or.inl hl2
              · exact Or.inr (hkey q hr2)
            · right
              simp
              right
              simpa using hr
      | error epair =>
          rcases epair with ⟨stA0, pl0⟩
          have hstep := (stepHandler_trace_keys p e st ent).2 stA0 pl0 heq
          constructor
          · intro st2 hloop
            rw [dispatchLoop, heq] at hloop
            exact absurd hloop (by simp)
          · intro stA pl hloop q hq
            rw [dispatchLoop, heq] at hloop
            have h1 : ({ stA0 with done := stA0.done ++ rest, active := [] }, pl0)
                = ((stA, pl) : LoopState × PanicPayload) := Except.error.inj hloop
            have h2 : stA = { stA0 with done := stA0.done ++ rest, active := [] } :=
              (congrArg Prod.fst h1).symm
            rw [h2] at hq
            rcases hstep q hq with hl | hr
            · exact Or.inl hl
            · exact Or.inr (hkey q hr)

theorem publish_trace_keys (p : Nat) (pub : Publisher) (e : DynEvent) :
    ∀ q ∈ (publish p pub e).trace, q.1 ∈ pub.handlers.map Prod.fst := by
  intro q hq
  have hb := dispatchLoop_trace_keys p e pub.handlers ⟨[], [], [], [], 0⟩
  cases heq : dispatchLoop p e pub.handlers ⟨[], [], [], [], 0⟩ with
  | ok st2 =>
      simp [publish, heq, drainAll] at hq
      rcases hb.1 st2 heq q hq with hl | hr
      · simp at hl
      · exact hr
  | error epair =>
      rcases epair with ⟨stA, pl⟩
      simp [publish, heq] at hq
      rcases hb.2 stA pl heq q hq with hl | hr
      · simp at hl
      · exact hr

theorem dispatchLoop_abort_of_poisoned (p : Nat) (e : DynEvent)
    (hs : List (Nat × HandlerType)) (st : LoopState) (i : Nat) (m : MutHandler)
    (hmem : (i, HandlerType.SyncMut m) ∈ hs) (hpois : m.poisoned = true) :
    ∃ stA pl, dispatchLoop p e hs st = Except.error (stA, pl) := by
  induction hs generalizing st with
  | nil => exact absurd hmem (List.not_mem_nil _)
  | cons ent rest ih =>
      rcases List.mem_cons.mp hmem with hhead | htail
      · have hstep : stepHandler p e st ent =
            Except.error
              ({ st with done := st.done ++ [(i, HandlerType.SyncMut m)] },
                PanicPayload.poisonedLock) := by
          rw [← hhead]
          simp [stepHandler, hpois]
        rw [dispatchLoop, hstep]
        exact ⟨_, _, rfl⟩
      · cases heq : stepHandler p e st ent with
        | ok stm =>
            rw [dispatchLoop, heq]
            exact ih stm htail
        | error epair =>
            rcases epair with ⟨stA0, pl0⟩
            rw [dispatchLoop, heq]
            exact ⟨_, _, rfl⟩

theorem publish_panics_of_poisoned (p : Nat) (pub : Publisher) (e : DynEvent)
    (i : Nat) (m : MutHandler) (hmem : (i, HandlerType.SyncMut m) ∈ pub.handlers)
    (hpois : m.poisoned = true) :
    (publish p pub e).outcome.isPanicked = true := by
  obtain ⟨stA, pl, heq⟩ :=
    dispatchLoop_abort_of_poisoned p e pub.handlers ⟨[], [], [], [], 0⟩ i m hmem hpois
  simp [publish, heq, Outcome.isPanicked]

theorem mapLookup_eq_none_iff (k : Nat) (m : List (Nat × HandlerType)) :
    mapLookup k m = none ↔ k ∉ m.map Prod.fst := by
  induction m with
  | nil => simp [mapLookup]
  | cons ent rest ih =>
      by_cases hk : ent.1 = k
      · simp [mapLookup, hk]
      · simp [mapLookup, hk, ih]
        intro h
        exact fun hc => hk hc.symm

theorem mem_of_mapLookup (k : Nat) (m : List (Nat × HandlerType)) (v : HandlerType)
    (h : mapLookup k m = some v) : (k, v) ∈ m := by
  induction m with
  | nil => simp [mapLookup] at h
  | cons ent rest ih =>
      by_cases hk : ent.1 = k
      · rw [mapLookup, if_pos hk] at h
        have hent : ent = (k, v) := by
          rcases ent with ⟨k0, v0⟩
          simp at hk h
          rw [hk, h]
        rw [hent]
        exact List.mem_cons_self _ _
      · rw [mapLookup, if_neg hk] at h
        exact List.mem_cons_of_mem _ (ih h)

theorem mapLookup_mapRemove_self (k : Nat) (m : List (Nat × HandlerType))
    (hnd : (m.map Prod.fst).Nodup) : mapLookup k (mapRemove k m) = none := by
  induction m with
  | nil => rfl
  | cons ent rest ih =>
      rw [List.map_cons, List.nodup_cons] at hnd
      by_cases hk : ent.1 = k
      · rw [mapRemove, if_pos hk, mapLookup_eq_none_iff, ← hk]
        exact hnd.1
      · rw [mapRemove, if_neg hk, mapLookup, if_neg hk]
        exact ih hnd.2

theorem mapLookup_mapRemove_ne (j k : Nat) (m : List (Nat × HandlerType))
    (hne : j ≠ k) : mapLookup j (mapRemove k m) = mapLookup j m := by
  induction m with
  | nil => rfl
  | cons ent rest ih =>
      by_cases hk : ent.1 = k
      · rw [mapRemove, if_pos hk, mapLookup,
          if_neg (by rw [hk]; exact fun hc => hne hc.symm)]
      · by_cases hj : ent.1 = j
        · rw [mapRemove, if_neg hk, mapLookup, if_pos hj, mapLookup, if_pos hj]
        · rw [mapRemove, if_neg hk, mapLookup, if_neg hj, mapLookup, if_neg hj]
          exact ih

theorem mapRemove_not_mem (k : Nat) (m : List (Nat × HandlerType))
    (h : k ∉ m.map Prod.fst) : mapRemove k m = m := by
  induction m with
  | nil => rfl
  | cons ent rest ih =>
      rw [List.map_cons] at h
      have h1 : ent.1 ≠ k := fun hc => h (by rw [hc]; exact List.mem_cons_self _ _)
      have h2 : k ∉ rest.map Prod.fst := fun hc => h (List.mem_cons_of_mem _ hc)
      rw [mapRemove, if_neg h1, ih h2]

theorem mapInsert_not_mem (k : Nat) (v : HandlerType) (m : List (Nat × HandlerType))
    (h : k ∉ m.map Prod.fst) : mapInsert k v m = m ++ [(k, v)] := by
  induction m with
  | nil => rfl
  | cons ent rest ih =>
      rw [List.map_cons] at h
      have h1 : ent.1 ≠ k := fun hc => h (by rw [hc]; exact List.mem_cons_self _ _)
      have h2 : k ∉ rest.map Prod.fst := fun hc => h (List.mem_cons_of_mem _ hc)
      rw [mapInsert, if_neg h1, ih h2, List.cons_append]

theorem mapLookup_mapInsert_self (k : Nat) (v : HandlerType)
    (m : List (Nat × HandlerType)) : mapLookup k (mapInsert k v m) = some v := by
  induction m with
  | nil => rw [mapInsert, mapLookup, if_pos rfl]
  | cons ent rest ih =>
      by_cases hk : ent.1 = k
      · rw [mapInsert, if_pos hk, mapLookup, if_pos rfl]
      · rw [mapInsert, if_neg hk, mapLookup, if_neg hk]
        exact ih

theorem mapRemove_mapInsert_fresh (k : Nat) (v : HandlerType)
    (m : List (Nat × HandlerType)) (h : k ∉ m.map Prod.fst) :
    mapRemove k (mapInsert k v m) = m := by
  rw [mapInsert_not_mem k v m h]
  induction m with
  | nil => rw [List.nil_append, mapRemove, if_pos rfl]
  | cons ent rest ih =>
      rw [List.map_cons] at h
      have h1 : ent.1 ≠ k := fun hc => h (by rw [hc]; exact List.mem_cons_self _ _)
      have h2 : k ∉ rest.map Prod.fst := fun hc => h (List.mem_cons_of_mem _ hc)
      rw [List.cons_append, mapRemove, if_neg h1, ih h2]

theorem runOps_ids (pub : Publisher) (ops : List Op) :
    (runOps pub ops).2 = List.range' (pub.handler_count + 1) (ops.countP isSub) := by
  induction ops generalizing pub with
  | nil => rfl
  | cons op rest ih =>
      cases op with
      | sub h =>
          rw [runOps, List.countP_cons]
          simp [isSub, subscribe, ih, List.range'_succ]
      | subWith h =>
          rw [runOps, List.countP_cons]
          simp [isSub, subscribe_with, subscribe, ih, List.range'_succ]
      | subMut m =>
          rw [runOps, List.countP_cons]
          simp [isSub, subscribe_mut, ih, List.range'_succ]
      | unsub id =>
          rw [runOps, List.countP_cons]
          simp [isSub, unsubscribe, ih]
      | unsubMut id =>
          rw [runOps, List.countP_cons]
          simp [isSub, unsubscribe_mut, ih]

theorem stepHandler_ok_trace (p : Nat) (e : DynEvent) (st : LoopState)
    (ent : Nat × HandlerType) :
    ∀ st2, stepHandler p e st ent = Except.ok st2 →
      st2.trace = st.trace ++ (matchEntry e ent).toList := by
  rcases ent with ⟨i, ht⟩
  cases ht with
  | Sync h =>
      intro st2 hstep
      have hst2 : st2 = checkJoin p (spawnSync i h (dyn_handle h e) (checkJoin p st)) :=
        (Except.ok.inj hstep).symm
      rw [hst2, checkJoin_trace, spawnSync_trace, checkJoin_trace, dyn_handle_trace]
  | SyncMut m =>
      intro st2 hstep
      by_cases hpois : m.poisoned
      · simp [stepHandler, hpois] at hstep
      · rcases hd : dyn_handle_mut m e with ⟨args, m2, res⟩
        cases res with
        | some v => simp [stepHandler, hpois, hd] at hstep
        | none =>
            simp [stepHandler, hpois, hd] at hstep
            rw [← hstep, checkJoin_trace]
            show st.trace ++ args.map (fun a => (i, a)) = _
            congr 1
            unfold dyn_handle_mut at hd
            split at hd
            · rename_i hm
              have hargs : args = [e.data] := by
                split at hd <;> simp at hd <;> simp [hd.1]
              rw [hargs]
              simp [matchEntry, boundTy, hm]
            · rename_i hm
              have hargs : args = [] := by
                simp at hd
                simp [hd.1]
              rw [hargs]
              simp [matchEntry, boundTy, hm]

theorem dispatchLoop_ok_trace (p : Nat) (e : DynEvent) (hs : List (Nat × HandlerType))
    (st : LoopState) :
    ∀ st2, dispatchLoop p e hs st = Except.ok st2 →
      st2.trace = st.trace ++ hs.filterMap (matchEntry e) := by
  induction hs generalizing st with
  | nil =>
      intro st2 hstep
      rw [← Except.ok.inj hstep]
      simp
  | cons ent rest ih =>
      intro st2 hstep
      cases heq : stepHandler p e st ent with
      | error epair =>
          rw [dispatchLoop, heq] at hstep
          exact absurd hstep (by simp)
      | ok stm =>
          rw [dispatchLoop, heq] at hstep
          rw [ih stm st2 hstep, stepHandler_ok_trace p e st ent stm heq,
            List.append_assoc]
          congr 1
          cases hc : matchEntry e ent <;> simp [List.filterMap_cons, hc]

theorem matchEntry_eq_some (e : DynEvent) (ent : Nat × HandlerType) (q : Nat × Nat)
    (h : matchEntry e ent = some q) : q = (ent.1, e.data) := by
  unfold matchEntry at h
  split at h
  · exact (Option.some.inj h).symm
  · exact absurd h (by simp)

theorem trace_filter_key_none (e : DynEvent) (hs : List (Nat × HandlerType)) (i : Nat)
    (h : i ∉ hs.map Prod.fst) :
    (hs.filterMap (matchEntry e)).filter (fun q => q.1 == i) = [] := by
  induction hs with
  | nil => rfl
  | cons ent rest ih =>
      rw [List.map_cons] at h
      have h1 : ent.1 ≠ i := fun hc => h (by rw [hc]; exact List.mem_cons_self _ _)
      have h2 : i ∉ rest.map Prod.fst := fun hc => h (List.mem_cons_of_mem _ hc)
      cases hc : matchEntry e ent with
      | none => rw [List.filterMap_cons_none hc]; exact ih h2
      | some q =>
          rw [List.filterMap_cons_some hc, List.filter_cons,
            if_neg (by simp [matchEntry_eq_some e ent q hc, h1])]
          exact ih h2

theorem trace_filter_key (e : DynEvent) (hs : List (Nat × HandlerType)) (i : Nat)
    (ht : HandlerType) (hnd : (hs.map Prod.fst).Nodup)
    (hl : mapLookup i hs = some ht) :
    (hs.filterMap (matchEntry e)).filter (fun q => q.1 == i)
      = if e.tyId = boundTy ht then [(i, e.data)] else [] := by
  induction hs with
  | nil => simp [mapLookup] at hl
  | cons ent rest ih =>
      rw [List.map_cons, List.nodup_cons] at hnd
      by_cases hk : ent.1 = i
      · rw [mapLookup, if_pos hk] at hl
        have hht : ht = ent.2 := (Option.some.inj hl).symm
        have hrest : (rest.filterMap (matchEntry e)).filter (fun q => q.1 == i) = [] :=
          trace_filter_key_none e rest i (by rw [← hk]; exact hnd.1)
        by_cases hm : e.tyId = boundTy ent.2
        · have hc : matchEntry e ent = some (ent.1, e.data) := by
            simp [matchEntry, hm]
          rw [List.filterMap_cons_some hc, List.filter_cons, if_pos (by simp [hk]),
            hrest, hht, if_pos hm, hk]
        · have hc : matchEntry e ent = none := by
            simp [matchEntry, hm]
          rw [List.filterMap_cons_none hc, hrest, hht, if_neg hm]
      · rw [mapLookup, if_neg hk] at hl
        have htail := ih hnd.2 hl
        cases hc : matchEntry e ent with
        | none => rw [List.filterMap_cons_none hc]; exact htail
        | some q =>
            rw [List.filterMap_cons_some hc, List.filter_cons,
              if_neg (by simp [matchEntry_eq_some e ent q hc, hk]), htail]

theorem publishSeq_counter (pnum c t : Nat) (ds : List Nat) (s : Nat) :
    publishSeq pnum t ds
        ⟨c, [(1, HandlerType.SyncMut ⟨t, s, fun a _ => a + 1, fun _ _ => none, false⟩)]⟩
      = ⟨c, [(1, HandlerType.SyncMut
          ⟨t, s + ds.length, fun a _ => a + 1, fun _ _ => none, false⟩)]⟩ := by
  induction ds generalizing s with
  | nil => simp [publishSeq]
  | cons d rest ih =>
      have hna : NoMutAbort (DynEvent.mk t d)
          [(1, HandlerType.SyncMut ⟨t, s, fun a _ => a + 1, fun _ _ => none, false⟩)] := by
        intro i m hmem
        simp at hmem
        rw [hmem.2]
        exact ⟨rfl, fun _ => rfl⟩
      have hp := (publish_spec pnum
          ⟨c, [(1, HandlerType.SyncMut ⟨t, s, fun a _ => a + 1, fun _ _ => none, false⟩)]⟩
          (DynEvent.mk t d) hna).2.2.2.2
      have happ : List.map (applyMutEntry (DynEvent.mk t d))
          [(1, HandlerType.SyncMut ⟨t, s, fun a _ => a + 1, fun _ _ => none, false⟩)]
          = [(1, HandlerType.SyncMut ⟨t, s + 1, fun a _ => a + 1, fun _ _ => none, false⟩)] := by
        simp [applyMutEntry, dyn_handle_mut]
      show publishSeq pnum t rest
          (publish pnum
            ⟨c, [(1, HandlerType.SyncMut ⟨t, s, fun a _ => a + 1, fun _ _ => none, false⟩)]⟩
            (DynEvent.mk t d)).pub = _
      rw [hp, happ, ih (s + 1)]
      have hlen : s + 1 + rest.length = s + (d :: rest).length := by
        rw [List.length_cons]
        omega
      rw [hlen]

/-- C1: for every handler bound to event type `A` registered on a publisher
(closure-based `Handler`, `Handle` implementor, or mutating `HandleMut`
implementor alike) and every published event of runtime type `B`, the
handler's underlying handle function is invoked iff `A = B` exactly (runtime
type identity, no subtype matching); when `A = B` it is invoked exactly once
per (normally returning) publish call, receiving a duplicate of the
published value; on a mismatch the trampoline does nothing and this is not
an error. -/
theorem publish_type_filtering (p : Nat) (pub : Publisher) (e : DynEvent) (i : Nat)
    (ht : HandlerType) (hwf : WF pub) (hl : mapLookup i pub.handlers = some ht)
    (hret : (publish p pub e).outcome.isPanicked = false) :
    (publish p pub e).trace.filter (fun q => q.1 == i)
      = if e.tyId = boundTy ht then [(i, e.data)] else [] := by
  cases heq : dispatchLoop p e pub.handlers ⟨[], [], [], [], 0⟩ with
  | error epair =>
      rcases epair with ⟨stA, pl⟩
      exfalso
      simp [publish, heq, Outcome.isPanicked] at hret
  | ok st2 =>
      have htr : (publish p pub e).trace = pub.handlers.filterMap (matchEntry e) := by
        have h2 := dispatchLoop_ok_trace p e pub.handlers ⟨[], [], [], [], 0⟩ st2 heq
        simp [publish, heq, drainAll]
        simpa using h2
      rw [htr]
      exact trace_filter_key e pub.handlers i ht hwf.1 hl

/-- Witness for C1 at a concrete input: the publisher produced by one
`subscribe` of a type-0 handler, published a matching type-0 event. -/
theorem publish_type_filtering_witness :
    WF wPub1 ∧ mapLookup 1 wPub1.handlers = some (HandlerType.Sync wSyncOk) ∧
    (publish 2 wPub1 ⟨0, 5⟩).outcome.isPanicked = false ∧
    (publish 2 wPub1 ⟨0, 5⟩).trace.filter (fun q => q.1 == 1)
      = (if (DynEvent.mk 0 5).tyId = boundTy (HandlerType.Sync wSyncOk)
          then [(1, 5)] else []) :=
  ⟨by decide, rfl, rfl,
    publish_type_filtering 2 wPub1 ⟨0, 5⟩ 1 (HandlerType.Sync wSyncOk) (by decide) rfl rfl⟩

/-- C2 counterexample: with the always-panicking mutating handler registered
under id 1 and a well-behaved read-only handler of the same event type under
id 2, publishing a matching event makes `publish` itself panic with the
mutating handler's payload — the fault is not converted into a failure
record — and handler 2 is never invoked (the trace only shows handler 1), so
the claim's "every other registered handler is still processed" and
"publish never raises" both fail for Exclusive handlers. -/
theorem mut_fault_not_isolated_cex :
    (publish 4 cexPub2 ⟨0, 3⟩).outcome = Outcome.panicked (PanicPayload.handlerPanic 7) ∧
    (publish 4 cexPub2 ⟨0, 3⟩).trace = [(1, 3)] := by
  constructor <;> rfl

/-- C2 (amended): for every publish call and every registered Shared
(read-only) handler whose invocation faults, the fault is isolated at
single-handler granularity — it becomes a failure record in the returned
list, every other matching registered handler is still invoked, and
`publish` never panics — provided no Exclusive (mutating) handler aborts the
call; an Exclusive handler's fault is not isolated: it poisons that
handler's lock and propagates out of `publish`. -/
theorem sync_fault_isolation (p : Nat) (pub : Publisher) (e : DynEvent) (i v : Nat)
    (h : SyncHandler) (hna : NoMutAbort e pub.handlers)
    (hl : mapLookup i pub.handlers = some (HandlerType.Sync h))
    (hmatch : e.tyId = h.ty) (hfault : h.behavior e.data = some v) :
    (publish p pub e).outcome.isPanicked = false ∧
    v ∈ (publish p pub e).outcome.errList ∧
    (∀ j ht, mapLookup j pub.handlers = some ht → e.tyId = boundTy ht →
      (j, e.data) ∈ (publish p pub e).trace) := by
  obtain ⟨htr, herr, hok, hpan, hpub⟩ := publish_spec p pub e hna
  refine ⟨hpan, ?_, ?_⟩
  · rw [herr]
    exact List.mem_filterMap.mpr
      ⟨(i, HandlerType.Sync h), mem_of_mapLookup _ _ _ hl,
        by simp [syncFault, hmatch, hfault]⟩
  · intro j ht hlj hmj
    rw [htr]
    exact List.mem_filterMap.mpr
      ⟨(j, ht), mem_of_mapLookup _ _ _ hlj, by simp [matchEntry, hmj]⟩

/-- Witness for the amended C2 at a concrete input: two read-only type-0
handlers, the one under id 1 always faulting with payload 3. -/
theorem sync_fault_isolation_witness :
    NoMutAbort ⟨0, 9⟩ wPubF.handlers ∧
    mapLookup 1 wPubF.handlers = some (HandlerType.Sync wSyncFault) ∧
    (DynEvent.mk 0 9).tyId = wSyncFault.ty ∧
    wSyncFault.behavior 9 = some 3 ∧
    ((publish 8 wPubF ⟨0, 9⟩).outcome.isPanicked = false ∧
      3 ∈ (publish 8 wPubF ⟨0, 9⟩).outcome.errList ∧
      (∀ j ht, mapLookup j wPubF.handlers = some ht →
        (DynEvent.mk 0 9).tyId = boundTy ht →
        (j, 9) ∈ (publish 8 wPubF ⟨0, 9⟩).trace)) :=
  ⟨by intro i m hmem; simp [wPubF] at hmem, rfl, rfl, rfl,
    sync_fault_isolation 8 wPubF ⟨0, 9⟩ 1 3 wSyncFault
      (by intro i m hmem; simp [wPubF] at hmem) rfl rfl rfl⟩

/-- C3: over any sequence of `subscribe`, `subscribe_with`, `subscribe_mut`,
`unsubscribe` and `unsubscribe_mut` calls on one publisher starting from
`Publisher::default`, the issued subscription ids are exactly `1, 2, 3, …`
in order — strictly increasing, starting at 1, and never reused even after
intervening unsubscribes (which leave the id counter untouched). -/
theorem subscription_ids_strictly_increasing (ops : List Op) :
    (runOps Publisher.default ops).2 = List.range' 1 (ops.countP isSub) ∧
    List.Chain' (· < ·) (runOps Publisher.default ops).2 := by
  have h1 := runOps_ids Publisher.default ops
  refine ⟨h1, ?_⟩
  rw [h1]
  exact (List.pairwise_lt_range' 1 (ops.countP isSub) 1).chain'

/-- C4 counterexample: a matching, faulting mutating handler does not
contribute a failure record to a returned list — `publish` panics instead of
returning — and after that call has poisoned the lock, publishing an event
of a type matched by zero handlers (type 1, handler bound to type 0) panics
as well instead of returning success. -/
theorem publish_mut_fault_result_cex :
    (publish 2 cexPubMut ⟨0, 5⟩).outcome = Outcome.panicked (PanicPayload.handlerPanic 9) ∧
    (publish 2 (publish 2 cexPubMut ⟨0, 5⟩).pub ⟨1, 0⟩).outcome
      = Outcome.panicked PanicPayload.poisonedLock := by
  constructor <;> rfl

/-- C4 (amended): provided no Exclusive (mutating) handler aborts the call
(none has a poisoned lock and none both matches and faults), `publish`
returns success iff no handler invocation faulted; the returned failure list
is exactly the per-entry fault records of the registry in iteration order —
each matching faulting Shared handler contributes exactly one record,
non-matching and normally completing handlers contribute nothing; an empty
registry and an event matched by zero handlers both yield success.  (Without
that proviso a matching faulting Exclusive handler makes `publish` panic
instead of returning a failure record, and a poisoned lock makes `publish`
panic even when zero handlers match.) -/
theorem publish_failure_aggregation (p : Nat) (pub : Publisher) (e : DynEvent)
    (hna : NoMutAbort e pub.handlers) :
    ((publish p pub e).outcome = Outcome.ok ↔
      pub.handlers.filterMap (syncFault e) = []) ∧
    (publish p pub e).outcome.errList = pub.handlers.filterMap (syncFault e) ∧
    (pub.handlers = [] → (publish p pub e).outcome = Outcome.ok) ∧
    ((∀ ent ∈ pub.handlers, e.tyId ≠ boundTy ent.2) →
      (publish p pub e).outcome = Outcome.ok) := by
  obtain ⟨htr, herr, hok, hpan, hpub⟩ := publish_spec p pub e hna
  refine ⟨hok, herr, ?_, ?_⟩
  · intro hemp
    exact hok.mpr (by rw [hemp]; rfl)
  · intro hnone
    apply hok.mpr
    apply List.filterMap_eq_nil_iff.mpr
    intro ent hent
    rcases ent with ⟨j, ht⟩
    cases ht with
    | Sync h =>
        have hne := hnone _ hent
        simp [boundTy] at hne
        simp [syncFault, hne]
    | SyncMut m => rfl

/-- Witness for the amended C4 at a concrete input: the two-read-only-handler
publisher, id 1 faulting, published a matching type-0 event. -/
theorem publish_failure_aggregation_witness :
    NoMutAbort ⟨0, 9⟩ wPubF.handlers ∧
    (((publish 8 wPubF ⟨0, 9⟩).outcome = Outcome.ok ↔
        wPubF.handlers.filterMap (syncFault ⟨0, 9⟩) = []) ∧
      (publish 8 wPubF ⟨0, 9⟩).outcome.errList
        = wPubF.handlers.filterMap (syncFault ⟨0, 9⟩) ∧
      (wPubF.handlers = [] → (publish 8 wPubF ⟨0, 9⟩).outcome = Outcome.ok) ∧
      ((∀ ent ∈ wPubF.handlers, (DynEvent.mk 0 9).tyId ≠ boundTy ent.2) →
        (publish 8 wPubF ⟨0, 9⟩).outcome = Outcome.ok)) :=
  ⟨by intro i m hmem; simp [wPubF] at hmem,
    publish_failure_aggregation 8 wPubF ⟨0, 9⟩
      (by intro i m hmem; simp [wPubF] at hmem)⟩

/-- C5: with concurrency budget `P ≥ 1` (the hardware parallelism, falling
back to 1), at most `P` Shared handler invocations are in flight at any
point of the dispatch loop (the sampled high-water mark of `active_handles`
never exceeds `P`); when the in-flight count reaches `P` the oldest
outstanding unit — the head of `active_handles` — is the one joined before
the next spawn, and the final drain leaves no unit unjoined when `publish`
returns. -/
theorem publish_inflight_bound (p : Nat) (pub : Publisher) (e : DynEvent) (hp : 1 ≤ p) :
    (publish p pub e).hwm ≤ p ∧
    (∀ st : LoopState, (joinOldest st).active = st.active.tail) ∧
    (∀ st : LoopState, (drainAll st).active = []) :=
  ⟨publish_hwm_le p pub e hp, joinOldest_active, fun _ => rfl⟩

/-- Witness for C5 at a concrete input: budget 1, the two-handler publisher. -/
theorem publish_inflight_bound_witness :
    1 ≤ 1 ∧
    ((publish 1 wPubF ⟨0, 9⟩).hwm ≤ 1 ∧
      (∀ st : LoopState, (joinOldest st).active = st.active.tail) ∧
      (∀ st : LoopState, (drainAll st).active = [])) :=
  ⟨le_refl 1, publish_inflight_bound 1 wPubF ⟨0, 9⟩ (le_refl 1)⟩

/-- C6: mutating handlers are invoked synchronously in line on the
publishing thread under their exclusive lock (never concurrently with each
other), so publishing `N` events of the matching type through a mutating
counter handler always yields exactly `N` increments — no lost updates. -/
theorem mut_counter_no_lost_updates (p t : Nat) (ds : List Nat) :
    mapLookup 1 (publishSeq p t ds
        (subscribe_mut Publisher.default (counterHandler t)).1).handlers
      = some (HandlerType.SyncMut
          ⟨t, ds.length, fun a _ => a + 1, fun _ _ => none, false⟩) := by
  show mapLookup 1 (publishSeq p t ds
      ⟨1, [(1, HandlerType.SyncMut ⟨t, 0, fun a _ => a + 1, fun _ _ => none, false⟩)]⟩).handlers = _
  rw [publishSeq_counter p 1 t ds 0]
  show mapLookup 1 [(1, HandlerType.SyncMut
      ⟨t, 0 + ds.length, fun a _ => a + 1, fun _ _ => none, false⟩)] = _
  rw [mapLookup, if_pos rfl, Nat.zero_add]

/-- C7: an Exclusive handler invocation that faults while holding its lock
poisons the lock, and every subsequent `publish` that attempts to acquire
that lock panics — with the distinct `poisonedLock` condition when it is the
poison check that fires — rather than silently proceeding; in general any
publisher holding a poisoned mutating handler can only complete a `publish`
call by panicking. -/
theorem poisoned_lock_fatal (p c i : Nat) (e1 e2 : DynEvent) (m : MutHandler) (v : Nat)
    (hpois : m.poisoned = false) (hm : e1.tyId = m.ty)
    (hpanic : m.panicsOn m.state e1.data = some v) :
    (publish p ⟨c, [(i, HandlerType.SyncMut m)]⟩ e1).outcome
        = Outcome.panicked (PanicPayload.handlerPanic v) ∧
    (publish p (publish p ⟨c, [(i, HandlerType.SyncMut m)]⟩ e1).pub e2).outcome
        = Outcome.panicked PanicPayload.poisonedLock ∧
    (∀ pub2 : Publisher, ∀ j : Nat, ∀ m2 : MutHandler,
      (j, HandlerType.SyncMut m2) ∈ pub2.handlers → m2.poisoned = true →
      (publish p pub2 e2).outcome.isPanicked = true) := by
  have h1 : dispatchLoop p e1 [(i, HandlerType.SyncMut m)] ⟨[], [], [], [], 0⟩
      = Except.error
          (⟨[(i, HandlerType.SyncMut { m with poisoned := true })], [], [], [(i, e1.data)], 0⟩,
            PanicPayload.handlerPanic v) := by
    simp [dispatchLoop, stepHandler, hpois, dyn_handle_mut, hm, hpanic]
  have hres : publish p ⟨c, [(i, HandlerType.SyncMut m)]⟩ e1
      = { pub := ⟨c, [(i, HandlerType.SyncMut { m with poisoned := true })]⟩,
          outcome := Outcome.panicked (PanicPayload.handlerPanic v),
          trace := [(i, e1.data)], hwm := 0 } := by
    simp [publish, h1]
  refine ⟨by rw [hres], ?_, ?_⟩
  · rw [hres]
    have h2 : dispatchLoop p e2
        [(i, HandlerType.SyncMut { m with poisoned := true })] ⟨[], [], [], [], 0⟩
        = Except.error
            (⟨[(i, HandlerType.SyncMut { m with poisoned := true })], [], [], [], 0⟩,
              PanicPayload.poisonedLock) := by
      simp [dispatchLoop, stepHandler]
    simp [publish, h2]
  · intro pub2 j m2 hmem hpois2
    exact publish_panics_of_poisoned p pub2 e2 j m2 hmem hpois2

/-- Witness for C7 at a concrete input: the always-panicking type-0 mutating
handler, a matching first event and an unrelated second event. -/
theorem poisoned_lock_fatal_witness :
    cexMutPanic.poisoned = false ∧
    (DynEvent.mk 0 4).tyId = cexMutPanic.ty ∧
    cexMutPanic.panicsOn cexMutPanic.state 4 = some 7 ∧
    ((publish 2 ⟨5, [(1, HandlerType.SyncMut cexMutPanic)]⟩ ⟨0, 4⟩).outcome
        = Outcome.panicked (PanicPayload.handlerPanic 7) ∧
      (publish 2 (publish 2 ⟨5, [(1, HandlerType.SyncMut cexMutPanic)]⟩ ⟨0, 4⟩).pub
          ⟨3, 0⟩).outcome = Outcome.panicked PanicPayload.poisonedLock ∧
      (∀ pub2 : Publisher, ∀ j : Nat, ∀ m2 : MutHandler,
        (j, HandlerType.SyncMut m2) ∈ pub2.handlers → m2.poisoned = true →
        (publish 2 pub2 ⟨3, 0⟩).outcome.isPanicked = true)) :=
  ⟨rfl, rfl, rfl, poisoned_lock_fatal 2 5 1 ⟨0, 4⟩ ⟨3, 0⟩ cexMutPanic 7 rfl rfl rfl⟩

/-- C8: after `unsubscribe(id)` (or `unsubscribe_mut(id)`) returns, a
subsequent `publish` of any event never invokes the handler that was
registered under `id`: no invocation in the ghost trace carries that id. -/
theorem unsubscribe_stops_invocation (p : Nat) (pub : Publisher) (id : Nat)
    (e : DynEvent) (hwf : WF pub) :
    (∀ q ∈ (publish p (unsubscribe pub id) e).trace, q.1 ≠ id) ∧
    (∀ q ∈ (publish p (unsubscribe_mut pub id) e).trace, q.1 ≠ id) := by
  have hkey : id ∉ (mapRemove id pub.handlers).map Prod.fst := by
    rw [← mapLookup_eq_none_iff]
    exact mapLookup_mapRemove_self id pub.handlers hwf.1
  constructor
  · intro q hq hqi
    have hmem := publish_trace_keys p (unsubscribe pub id) e q hq
    rw [hqi] at hmem
    exact hkey hmem
  · intro q hq hqi
    have hmem := publish_trace_keys p (unsubscribe_mut pub id) e q hq
    rw [hqi] at hmem
    exact hkey hmem

/-- Witness for C8 at a concrete input: unsubscribing id 1 from the
single-handler publisher and publishing a matching event. -/
theorem unsubscribe_stops_invocation_witness :
    WF wPub1 ∧
    ((∀ q ∈ (publish 2 (unsubscribe wPub1 1) ⟨0, 5⟩).trace, q.1 ≠ 1) ∧
      (∀ q ∈ (publish 2 (unsubscribe_mut wPub1 1) ⟨0, 5⟩).trace, q.1 ≠ 1)) :=
  ⟨by decide, unsubscribe_stops_invocation 2 wPub1 1 ⟨0, 5⟩ (by decide)⟩

/-- C9: `unsubscribe(id)` and `unsubscribe_mut(id)` remove exactly the
registry entry keyed by `id` when present and never produce an error; on an
absent id the call is a silent no-op (the publisher is unchanged), and in
all cases every other registry entry and the id counter are untouched. -/
theorem unsubscribe_frame (pub : Publisher) (id : Nat) (hwf : WF pub) :
    (unsubscribe pub id).handler_count = pub.handler_count ∧
    mapLookup id (unsubscribe pub id).handlers = none ∧
    (∀ j, j ≠ id → mapLookup j (unsubscribe pub id).handlers = mapLookup j pub.handlers) ∧
    (mapLookup id pub.handlers = none → unsubscribe pub id = pub) ∧
    (∀ pb : Publisher, ∀ k : Nat, unsubscribe_mut pb k = unsubscribe pb k) := by
  refine ⟨rfl, mapLookup_mapRemove_self id pub.handlers hwf.1,
    fun j hj => mapLookup_mapRemove_ne j id _ hj, ?_, fun _ _ => rfl⟩
  intro hnone
  show Publisher.mk pub.handler_count (mapRemove id pub.handlers) = pub
  rw [mapRemove_not_mem id _ ((mapLookup_eq_none_iff id _).mp hnone)]

/-- Witness for C9 at a concrete input: the single-handler publisher and its
issued id. -/
theorem unsubscribe_frame_witness :
    WF wPub1 ∧
    ((unsubscribe wPub1 1).handler_count = wPub1.handler_count ∧
      mapLookup 1 (unsubscribe wPub1 1).handlers = none ∧
      (∀ j, j ≠ 1 → mapLookup j (unsubscribe wPub1 1).handlers
        = mapLookup j wPub1.handlers) ∧
      (mapLookup 1 wPub1.handlers = none → unsubscribe wPub1 1 = wPub1) ∧
      (∀ pb : Publisher, ∀ k : Nat, unsubscribe_mut pb k = unsubscribe pb k)) :=
  ⟨by decide, unsubscribe_frame wPub1 1 (by decide)⟩

/-- C10: Shared and Exclusive handlers share one registry map and one id
counter: ids issued across any mixed sequence of subscriptions never
collide, `subscribe` and `subscribe_mut` both return `handler_count + 1`,
`unsubscribe` and `unsubscribe_mut` are the same operation, and removing a
`subscribe_mut` id with `unsubscribe` (or a `subscribe` id with
`unsubscribe_mut`) removes that handler. -/
theorem common_registry_and_counter (ops : List Op) (pub : Publisher)
    (h : SyncHandler) (m : MutHandler) (hwf : WF pub) :
    ((runOps Publisher.default ops).2).Nodup ∧
    (subscribe pub h).2 = pub.handler_count + 1 ∧
    (subscribe_mut pub m).2 = pub.handler_count + 1 ∧
    (∀ pb : Publisher, ∀ k : Nat, unsubscribe_mut pb k = unsubscribe pb k) ∧
    mapLookup (subscribe_mut pub m).2
      ((unsubscribe (subscribe_mut pub m).1 (subscribe_mut pub m).2).handlers) = none ∧
    mapLookup (subscribe pub h).2
      ((unsubscribe_mut (subscribe pub h).1 (subscribe pub h).2).handlers) = none := by
  have hfresh : pub.handler_count + 1 ∉ pub.handlers.map Prod.fst := by
    intro hc
    have := hwf.2 _ hc
    omega
  refine ⟨?_, rfl, rfl, fun _ _ => rfl, ?_, ?_⟩
  · rw [runOps_ids]
    exact List.nodup_range' _ _
  · show mapLookup (pub.handler_count + 1)
      (mapRemove (pub.handler_count + 1)
        (mapInsert (pub.handler_count + 1) (HandlerType.SyncMut m) pub.handlers)) = none
    rw [mapRemove_mapInsert_fresh _ _ _ hfresh, mapLookup_eq_none_iff]
    exact hfresh
  · show mapLookup (pub.handler_count + 1)
      (mapRemove (pub.handler_count + 1)
        (mapInsert (pub.handler_count + 1) (HandlerType.Sync h) pub.handlers)) = none
    rw [mapRemove_mapInsert_fresh _ _ _ hfresh, mapLookup_eq_none_iff]
    exact hfresh

/-- Witness for C10 at a concrete input: a two-operation sequence and the
single-handler publisher. -/
theorem common_registry_and_counter_witness :
    WF wPub1 ∧
    (((runOps Publisher.default [Op.sub wSyncOk, Op.subMut (counterHandler 0)]).2).Nodup ∧
      (subscribe wPub1 wSyncOk).2 = wPub1.handler_count + 1 ∧
      (subscribe_mut wPub1 (counterHandler 0)).2 = wPub1.handler_count + 1 ∧
      (∀ pb : Publisher, ∀ k : Nat, unsubscribe_mut pb k = unsubscribe pb k) ∧
      mapLookup (subscribe_mut wPub1 (counterHandler 0)).2
        ((unsubscribe (subscribe_mut wPub1 (counterHandler 0)).1
          (subscribe_mut wPub1 (counterHandler 0)).2).handlers) = none ∧
      mapLookup (subscribe wPub1 wSyncOk).2
        ((unsubscribe_mut (subscribe wPub1 wSyncOk).1
          (subscribe wPub1 wSyncOk).2).handlers) = none) :=
  ⟨by decide,
    common_registry_and_counter [Op.sub wSyncOk, Op.subMut (counterHandler 0)]
      wPub1 wSyncOk (counterHandler 0) (by decide)⟩

end Crier
